import Mathlib

/-!
Verification development for the forward-dll repository: a shallow embedding
of the runtime forwarding engine (DllForwarder / forward_all / default_jumper),
the generated x86_64 trampoline, the link-time directive generator
(forward_dll_impl) and the export-table reader (get_dll_export_names),
with theorems settling the specification claims about them.
-/

/-- Errors of the forwarding engine, from ForwardError in forward-dll/src/lib.rs:
Win32Error carries the Win32 API function name and the GetLastError code;
StringError is a CString NulError; AlreadyInitialized rejects re-initialization. -/
inductive ForwardError where
  | Win32Error (func : String) (code : Nat)
  | StringError
  | AlreadyInitialized
deriving DecidableEq, Repr

deriving instance DecidableEq for Except

/-- Observable library-management events: LoadLibraryA returning handle h,
GetProcAddress queried on handle h for a name, FreeLibrary of handle h. -/
inductive Event where
  | load (h : Nat)
  | query (h : Nat) (name : String)
  | free (h : Nat)
deriving DecidableEq, Repr

/-- The OS loader, abstracted: LoadLibraryA yields a module handle (0 = failure,
with loadErrorCode as the GetLastError value) and GetProcAddress yields an
optional address (none = failure, with procErrorCode as the GetLastError value). -/
structure LibEnv where
  loadLibrary : String → Nat
  loadErrorCode : Nat
  getProcAddress : Nat → String → Option Nat
  procErrorCode : Nat

/-- CString::new fails (NulError) exactly when the string holds an interior NUL byte. -/
def hasNul (s : String) : Bool :=
  s.data.contains (Char.ofNat 0)

/-- load_library from forward-dll/src/utils.rs: converts the name to a CString
(StringError on NUL), calls LoadLibraryA, and maps a 0 handle to
Win32Error("LoadLibraryA", GetLastError()).  Also returns the emitted events:
a load event exactly when a handle was acquired. -/
def load_library (env : LibEnv) (lib_filename : String) :
    Except ForwardError Nat × List Event :=
  if hasNul lib_filename then (.error .StringError, [])
  else
    let h := env.loadLibrary lib_filename
    if h = 0 then (.error (.Win32Error "LoadLibraryA" env.loadErrorCode), [])
    else (.ok h, [.load h])

/-- get_proc_address_by_module from forward-dll/src/utils.rs: converts the
name to a CString (StringError on NUL), calls GetProcAddress, and maps a none
result to Win32Error("GetProcAddress", GetLastError()). -/
def get_proc_address_by_module (env : LibEnv) (inst : Nat) (proc_name : String) :
    Except ForwardError Nat × List Event :=
  if hasNul proc_name then (.error .StringError, [])
  else
    match env.getProcAddress inst proc_name with
    | some addr => (.ok addr, [.query inst proc_name])
    | none => (.error (.Win32Error "GetProcAddress" env.procErrorCode), [.query inst proc_name])

/-- free_library from forward-dll/src/utils.rs: FreeLibrary on the handle. -/
def free_library (inst : Nat) : List Event :=
  [.free inst]

/-- DllForwarder from forward-dll/src/lib.rs.  The two const-generic arrays
target_functions_address and target_function_names become lists (index i is slot i). -/
structure DllForwarder where
  initialized : Bool
  module_handle : Nat
  target_functions_address : List Nat
  target_function_names : List String
  lib_name : String
deriving DecidableEq, Repr

/-- The body of the resolution loop of DllForwarder::forward_all:
for index in i .. i+fuel, resolve target_function_names[index] and store the
address into target_functions_address[index]; an error aborts immediately,
keeping the writes already made.  fuel is the remaining iteration count
(at the top-level call, the array length). -/
def forwardLoopAux (env : LibEnv) (lib : Nat) (names : List String) :
    List Nat → Nat → Nat → Except ForwardError Unit × List Nat × List Event
  | addrs, _, 0 => (.ok (), addrs, [])
  | addrs, i, fuel + 1 =>
    let step := get_proc_address_by_module env lib (names.getD i "")
    match step.1 with
    | .error e => (.error e, addrs, step.2)
    | .ok addr =>
      let rest := forwardLoopAux env lib names (addrs.set i addr) (i + 1) fuel
      (rest.1, rest.2.1, step.2 ++ rest.2.2)

/-- DllForwarder::forward_all from forward-dll/src/lib.rs: rejects with
AlreadyInitialized when the flag is set; otherwise acquires the library once
(ForeignLibrary::new = load_library), resolves every slot by name in index
order, and on success retains the handle (into_raw) into module_handle and
sets initialized.  On a resolution error the ForeignLibrary is dropped,
which frees the handle. -/
def forward_all (env : LibEnv) (f : DllForwarder) :
    Except ForwardError Unit × DllForwarder × List Event :=
  if f.initialized then (.error .AlreadyInitialized, f, [])
  else
    let ld := load_library env f.lib_name
    match ld.1 with
    | .error e => (.error e, f, ld.2)
    | .ok h =>
      let body := forwardLoopAux env h f.target_function_names
        f.target_functions_address 0 f.target_functions_address.length
      match body.1 with
      | .error e =>
        (.error e, { f with target_functions_address := body.2.1 },
          ld.2 ++ body.2.2 ++ free_library h)
      | .ok _ =>
        (.ok (), { f with target_functions_address := body.2.1,
                          module_handle := h, initialized := true },
          ld.2 ++ body.2.2)

/-- Where a generated entry point transfers control: either a machine address,
or the terminal fallback exit_fn (std::process::exit(1)). -/
inductive JumpTarget where
  | addr (a : Nat)
  | exitFn
deriving DecidableEq, Repr

/-- default_jumper from the define_function! macro in forward-dll/src/lib.rs:
given the entry point's slot value, returns it when nonzero; otherwise
acquires the target library (ForeignLibrary::new), resolves the entry point's
own symbol name, and returns that address, the ForeignLibrary being dropped
(handle freed) on scope exit; on any failure the returned target is exit_fn.
It receives the slot value only, so it performs no write to the slot. -/
def default_jumper (env : LibEnv) (lib_name proc_name : String)
    (original_fn_addr : Nat) : JumpTarget × List Event :=
  if original_fn_addr ≠ 0 then (.addr original_fn_addr, [])
  else
    let ld := load_library env lib_name
    match ld.1 with
    | .ok h =>
      let gp := get_proc_address_by_module env h proc_name
      match gp.1 with
      | .ok addr => (.addr addr, ld.2 ++ gp.2 ++ free_library h)
      | .error _ => (.exitFn, ld.2 ++ gp.2 ++ free_library h)
    | .error _ => (.exitFn, ld.2)

/-- The generated export function at slot index i (define_function! in
forward-dll/src/lib.rs): it passes the current slot value
target_functions_address[i] to default_jumper together with the entry point's
own symbol name, and tail-jumps to the returned target.  The generated code
contains no store into the forwarder, so the state comes back unchanged. -/
def lazyInvoke (env : LibEnv) (f : DllForwarder) (i : Nat) :
    JumpTarget × DllForwarder × List Event :=
  let r := default_jumper env f.lib_name (f.target_function_names.getD i "")
    (f.target_functions_address.getD i 0)
  (r.1, f, r.2)

/-- Event classifier: GetProcAddress queries. -/
def isQuery : Event → Bool
  | .query _ _ => true
  | _ => false

/-- Event classifier: LoadLibraryA acquisitions. -/
def isLoad : Event → Bool
  | .load _ => true
  | _ => false

/-- The resolution outcome the environment gives for slot index j of a name table. -/
def procAt (env : LibEnv) (lib : Nat) (names : List String) (j : Nat) :
    Except ForwardError Nat :=
  (get_proc_address_by_module env lib (names.getD j "")).1

theorem getD_set_ne (l : List Nat) (i j a : Nat) (h : j ≠ i) :
    (l.set i a).getD j 0 = l.getD j 0 := by
  simp [List.getD_eq_getElem?_getD, List.getElem?_set_ne (Ne.symm h)]

theorem getD_set_self (l : List Nat) (i a : Nat) (h : i < l.length) :
    (l.set i a).getD i 0 = a := by
  simp [List.getD_eq_getElem?_getD, List.getElem?_set_self h]

theorem gp_events_query (env : LibEnv) (lib : Nat) (s : String) :
    ∀ e ∈ (get_proc_address_by_module env lib s).2, isQuery e = true := by
  intro e he
  unfold get_proc_address_by_module at he
  by_cases hn : hasNul s = true
  · rw [if_pos hn] at he; simp at he
  · rw [if_neg hn] at he
    rcases hm : env.getProcAddress lib s with _ | addr <;> rw [hm] at he <;>
      simp at he <;> simp [he, isQuery]

theorem gp_ok_events (env : LibEnv) (lib : Nat) (s : String) (a : Nat)
    (h : (get_proc_address_by_module env lib s).1 = .ok a) :
    (get_proc_address_by_module env lib s).2 = [Event.query lib s] := by
  unfold get_proc_address_by_module at h ⊢
  by_cases hn : hasNul s = true
  · rw [if_pos hn] at h; simp at h
  · rw [if_neg hn]
    rcases hm : env.getProcAddress lib s with _ | addr <;> simp [hm]

theorem load_ok_events (env : LibEnv) (s : String) (h : Nat)
    (hok : (load_library env s).1 = .ok h) :
    (load_library env s).2 = [Event.load h] := by
  unfold load_library at hok ⊢
  by_cases hn : hasNul s = true
  · rw [if_pos hn] at hok; simp at hok
  · rw [if_neg hn] at hok ⊢
    by_cases hz : env.loadLibrary s = 0
    · simp [hz] at hok
    · simp [hz] at hok ⊢
      rw [hok]

theorem forwardLoopAux_zero (env : LibEnv) (lib : Nat) (names : List String)
    (addrs : List Nat) (i : Nat) :
    forwardLoopAux env lib names addrs i 0 = (.ok (), addrs, []) := rfl

theorem forwardLoopAux_succ_err (env : LibEnv) (lib : Nat) (names : List String)
    (addrs : List Nat) (i fuel : Nat) (e : ForwardError)
    (hq : (get_proc_address_by_module env lib (names.getD i "")).1 = .error e) :
    forwardLoopAux env lib names addrs i (fuel + 1) =
      (.error e, addrs, (get_proc_address_by_module env lib (names.getD i "")).2) := by
  simp only [forwardLoopAux, hq]

theorem forwardLoopAux_succ_ok (env : LibEnv) (lib : Nat) (names : List String)
    (addrs : List Nat) (i fuel : Nat) (addr : Nat)
    (hq : (get_proc_address_by_module env lib (names.getD i "")).1 = .ok addr) :
    forwardLoopAux env lib names addrs i (fuel + 1) =
      ((forwardLoopAux env lib names (addrs.set i addr) (i + 1) fuel).1,
       (forwardLoopAux env lib names (addrs.set i addr) (i + 1) fuel).2.1,
       (get_proc_address_by_module env lib (names.getD i "")).2 ++
         (forwardLoopAux env lib names (addrs.set i addr) (i + 1) fuel).2.2) := by
  simp only [forwardLoopAux, hq]

/-- Full behavioural specification of the forward_all resolution loop over the
window of indices i .. i+fuel-1: length preservation, frame outside the window,
query-only events, the success case (every index resolved and stored, queries
emitted in index order) and the failure case (a first failing index k, indices
below k resolved and stored, indices from k on untouched). -/
def LoopSpec (env : LibEnv) (lib : Nat) (names : List String)
    (fuel i : Nat) (addrs : List Nat) : Prop :=
  (forwardLoopAux env lib names addrs i fuel).2.1.length = addrs.length ∧
  (∀ j, j < i →
    (forwardLoopAux env lib names addrs i fuel).2.1.getD j 0 = addrs.getD j 0) ∧
  (∀ j, i + fuel ≤ j →
    (forwardLoopAux env lib names addrs i fuel).2.1.getD j 0 = addrs.getD j 0) ∧
  (∀ e ∈ (forwardLoopAux env lib names addrs i fuel).2.2, isQuery e = true) ∧
  ((forwardLoopAux env lib names addrs i fuel).1 = .ok () →
    (∀ j, i ≤ j → j < i + fuel → procAt env lib names j =
      .ok ((forwardLoopAux env lib names addrs i fuel).2.1.getD j 0)) ∧
    (forwardLoopAux env lib names addrs i fuel).2.2 =
      (List.range fuel).map (fun k => Event.query lib (names.getD (i + k) ""))) ∧
  (∀ e, (forwardLoopAux env lib names addrs i fuel).1 = .error e →
    ∃ k, i ≤ k ∧ k < i + fuel ∧ procAt env lib names k = .error e ∧
      (∀ j, i ≤ j → j < k → procAt env lib names j =
        .ok ((forwardLoopAux env lib names addrs i fuel).2.1.getD j 0)) ∧
      (∀ j, k ≤ j →
        (forwardLoopAux env lib names addrs i fuel).2.1.getD j 0 = addrs.getD j 0))

theorem forwardLoopAux_spec (env : LibEnv) (lib : Nat) (names : List String) :
    ∀ (fuel i : Nat) (addrs : List Nat), i + fuel ≤ addrs.length →
    LoopSpec env lib names fuel i addrs := by
  intro fuel
  induction fuel with
  | zero =>
    intro i addrs _
    unfold LoopSpec
    rw [forwardLoopAux_zero]
    refine ⟨rfl, fun j _ => rfl, fun j _ => rfl, by simp, ?_, ?_⟩
    · intro _
      exact ⟨fun j h1 h2 => absurd h2 (by omega), by simp⟩
    · intro e he
      simp at he
  | succ fuel ih =>
    intro i addrs hle
    unfold LoopSpec
    rcases hq : (get_proc_address_by_module env lib (names.getD i "")).1 with e₀ | addr₀
    · rw [forwardLoopAux_succ_err env lib names addrs i fuel e₀ hq]
      refine ⟨rfl, fun j _ => rfl, fun j _ => rfl, gp_events_query env lib _, ?_, ?_⟩
      · intro hok; simp at hok
      · intro e he
        simp only [Except.error.injEq] at he
        subst he
        exact ⟨i, le_refl i, by omega, by simpa [procAt] using hq,
          fun j h1 h2 => absurd h2 (by omega), fun j _ => rfl⟩
    · rw [forwardLoopAux_succ_ok env lib names addrs i fuel addr₀ hq]
      have hlen : (i + 1) + fuel ≤ (addrs.set i addr₀).length := by
        rw [List.length_set]; omega
      have IH := ih (i + 1) (addrs.set i addr₀) hlen
      unfold LoopSpec at IH
      obtain ⟨IH1, IH2, IH3, IH4, IH5, IH6⟩ := IH
      have hilen : i < addrs.length := by omega
      refine ⟨by rw [IH1, List.length_set], ?_, ?_, ?_, ?_, ?_⟩
      · intro j hj
        rw [IH2 j (by omega), getD_set_ne addrs i j addr₀ (by omega)]
      · intro j hj
        rw [IH3 j (by omega), getD_set_ne addrs i j addr₀ (by omega)]
      · intro e he
        rcases List.mem_append.mp he with h1 | h2
        · exact gp_events_query env lib _ e h1
        · exact IH4 e h2
      · intro hok
        obtain ⟨IH5a, IH5b⟩ := IH5 hok
        constructor
        · intro j h1 h2
          rcases Nat.eq_or_lt_of_le h1 with hji | hji
          · subst hji
            rw [IH2 i (by omega), getD_set_self addrs i addr₀ hilen]
            simpa [procAt] using hq
          · exact IH5a j (by omega) (by omega)
        · rw [gp_ok_events env lib _ addr₀ hq, IH5b, List.range_succ_eq_map]
          simp only [List.map_cons, List.map_map, List.singleton_append, Nat.add_zero]
          congr 1
          apply List.map_congr_left
          intro k _
          simp only [Function.comp_apply]
          congr 2
          omega
      · intro e he
        obtain ⟨k, hk1, hk2, hk3, hk4, hk5⟩ := IH6 e he
        refine ⟨k, by omega, by omega, hk3, ?_, ?_⟩
        · intro j h1 h2
          rcases Nat.eq_or_lt_of_le h1 with hji | hji
          · subst hji
            rw [IH2 i (by omega), getD_set_self addrs i addr₀ hilen]
            simpa [procAt] using hq
          · exact hk4 j (by omega) h2
        · intro j hj
          rw [hk5 j hj, getD_set_ne addrs i j addr₀ (by omega)]

theorem forward_all_init_eq (env : LibEnv) (f : DllForwarder)
    (h : f.initialized = true) :
    forward_all env f = (.error .AlreadyInitialized, f, []) := by
  simp [forward_all, h]

theorem forward_all_load_err (env : LibEnv) (f : DllForwarder) (e : ForwardError)
    (hinit : f.initialized = false)
    (hl : (load_library env f.lib_name).1 = .error e) :
    forward_all env f = (.error e, f, (load_library env f.lib_name).2) := by
  simp [forward_all, hinit, hl]

theorem forward_all_body_err (env : LibEnv) (f : DllForwarder) (h : Nat)
    (e : ForwardError)
    (hinit : f.initialized = false)
    (hl : (load_library env f.lib_name).1 = .ok h)
    (hb : (forwardLoopAux env h f.target_function_names f.target_functions_address 0
            f.target_functions_address.length).1 = .error e) :
    forward_all env f =
      (.error e,
       { f with target_functions_address :=
           (forwardLoopAux env h f.target_function_names f.target_functions_address 0
             f.target_functions_address.length).2.1 },
       (load_library env f.lib_name).2 ++
         (forwardLoopAux env h f.target_function_names f.target_functions_address 0
           f.target_functions_address.length).2.2 ++ free_library h) := by
  simp [forward_all, hinit, hl, hb]

theorem forward_all_body_ok (env : LibEnv) (f : DllForwarder) (h : Nat)
    (hinit : f.initialized = false)
    (hl : (load_library env f.lib_name).1 = .ok h)
    (hb : (forwardLoopAux env h f.target_function_names f.target_functions_address 0
            f.target_functions_address.length).1 = .ok ()) :
    forward_all env f =
      (.ok (),
       { f with
           target_functions_address :=
             (forwardLoopAux env h f.target_function_names f.target_functions_address 0
               f.target_functions_address.length).2.1
           module_handle := h
           initialized := true },
       (load_library env f.lib_name).2 ++
         (forwardLoopAux env h f.target_function_names f.target_functions_address 0
           f.target_functions_address.length).2.2) := by
  simp [forward_all, hinit, hl, hb]

theorem forward_all_ok_initialized (env : LibEnv) (f : DllForwarder)
    (h : (forward_all env f).1 = .ok ()) :
    (forward_all env f).2.1.initialized = true := by
  by_cases hinit : f.initialized = true
  · rw [forward_all_init_eq env f hinit] at h
    simp at h
  · rw [Bool.not_eq_true] at hinit
    rcases hl : (load_library env f.lib_name).1 with e | hh
    · rw [forward_all_load_err env f e hinit hl] at h
      simp at h
    · rcases hb : (forwardLoopAux env hh f.target_function_names
          f.target_functions_address 0 f.target_functions_address.length).1 with e | u
      · rw [forward_all_body_err env f hh e hinit hl hb] at h
        simp at h
      · cases u
        rw [forward_all_body_ok env f hh hinit hl hb]

/-- C1: with the initialized flag already true, forward_all returns the
AlreadyInitialized error immediately, with the whole forwarder state unchanged
and no library events (no writes); forward_all, the only operation of the
forwarder, never resets an initialized flag that is true; and a successful
forward_all followed by a second call yields Ok then AlreadyInitialized, the
second call again performing no writes. -/
theorem forward_all_second_call_rejected (env env2 : LibEnv) (f g : DllForwarder)
    (hinit : f.initialized = true) :
    forward_all env f = (.error .AlreadyInitialized, f, []) ∧
    (∀ env3 f3, f3.initialized = true →
      (forward_all env3 f3).2.1.initialized = true) ∧
    ((forward_all env2 g).1 = .ok () →
      forward_all env ((forward_all env2 g).2.1) =
        (.error .AlreadyInitialized, (forward_all env2 g).2.1, [])) := by
  refine ⟨forward_all_init_eq env f hinit, ?_, ?_⟩
  · intro env3 f3 h3
    rw [forward_all_init_eq env3 f3 h3]
    exact h3
  · intro hok
    exact forward_all_init_eq env _ (forward_all_ok_initialized env2 g hok)

/-- Concrete OS-loader fixture: "target.dll" loads as handle 5, which exports
"Foo" at address 4660 and "Bar" at address 4661. -/
def cenv : LibEnv :=
  { loadLibrary := fun s => if s = "target.dll" then 5 else 0
    loadErrorCode := 126
    getProcAddress := fun h s =>
      if h = 5 ∧ s = "Foo" then some 4660
      else if h = 5 ∧ s = "Bar" then some 4661
      else none
    procErrorCode := 127 }

/-- Concrete forwarder fixture as the forward_dll macro generates it:
uninitialized, zeroed slots, names in export order. -/
def cfwd0 : DllForwarder :=
  { initialized := false
    module_handle := 0
    target_functions_address := [0, 0]
    target_function_names := ["Foo", "Bar"]
    lib_name := "target.dll" }

/-- Concrete forwarder fixture whose initialized flag is already set. -/
def cfwdInit : DllForwarder :=
  { cfwd0 with initialized := true, module_handle := 9 }

theorem forward_all_second_call_rejected_witness :
    forward_all cenv cfwdInit = (.error .AlreadyInitialized, cfwdInit, []) ∧
    (forward_all cenv cfwd0).1 = .ok () ∧
    forward_all cenv ((forward_all cenv cfwd0).2.1) =
      (.error .AlreadyInitialized, (forward_all cenv cfwd0).2.1, []) := by
  have hok : (forward_all cenv cfwd0).1 = .ok () := by decide
  have T := forward_all_second_call_rejected cenv cenv cfwdInit cfwd0 (by decide)
  exact ⟨T.1, hok, T.2.2 hok⟩

theorem isQuery_not_isLoad (e : Event) (h : isQuery e = true) : isLoad e = false := by
  cases e <;> simp_all [isQuery, isLoad]

theorem countP_isLoad_zero (l : List Event) (h : ∀ e ∈ l, isQuery e = true) :
    l.countP (fun e => isLoad e) = 0 := by
  rw [List.countP_eq_zero]
  intro e he
  simp [isQuery_not_isLoad e (h e he)]

/-- C4: with the initialized flag unset, the target library loading to handle h
and all slots still 0, forward_all acquires the library exactly once (one load
event) and resolves the slots by name in increasing index order: if every name
resolves, the call returns Ok, each slot holds its resolved address, the handle
is retained in module_handle and initialized becomes true (the trace shows the
load followed by the index-ordered queries and no release); if index i is the
first failing index, the call returns that error, slots below i keep the
addresses already written, slots from i on remain 0, initialized and
module_handle are unchanged, and the handle is released. -/
theorem forward_all_resolution (env : LibEnv) (f : DllForwarder) (h : Nat)
    (hinit : f.initialized = false)
    (hl : (load_library env f.lib_name).1 = .ok h)
    (hzero : ∀ j, f.target_functions_address.getD j 0 = 0) :
    ((forward_all env f).2.2.countP (fun e => isLoad e) = 1) ∧
    ((∀ j, j < f.target_functions_address.length →
        ∃ a, procAt env h f.target_function_names j = .ok a) →
      (forward_all env f).1 = .ok () ∧
      (forward_all env f).2.1.initialized = true ∧
      (forward_all env f).2.1.module_handle = h ∧
      (forward_all env f).2.1.target_functions_address.length =
        f.target_functions_address.length ∧
      (∀ j, j < f.target_functions_address.length →
        procAt env h f.target_function_names j =
          .ok ((forward_all env f).2.1.target_functions_address.getD j 0)) ∧
      (forward_all env f).2.2 =
        Event.load h :: (List.range f.target_functions_address.length).map
          (fun k => Event.query h (f.target_function_names.getD k ""))) ∧
    (∀ i e, i < f.target_functions_address.length →
      procAt env h f.target_function_names i = .error e →
      (∀ j, j < i → ∃ a, procAt env h f.target_function_names j = .ok a) →
      (forward_all env f).1 = .error e ∧
      (forward_all env f).2.1.initialized = false ∧
      (forward_all env f).2.1.module_handle = f.module_handle ∧
      (∀ j, j < i → procAt env h f.target_function_names j =
        .ok ((forward_all env f).2.1.target_functions_address.getD j 0)) ∧
      (∀ j, i ≤ j →
        (forward_all env f).2.1.target_functions_address.getD j 0 = 0) ∧
      ∃ qs, (∀ q ∈ qs, isQuery q = true) ∧
        (forward_all env f).2.2 = Event.load h :: qs ++ [Event.free h]) := by
  have spec := forwardLoopAux_spec env h f.target_function_names
    f.target_functions_address.length 0 f.target_functions_address (by omega)
  unfold LoopSpec at spec
  obtain ⟨S1, _S2, _S3, S4, S5, S6⟩ := spec
  have hld := load_ok_events env f.lib_name h hl
  refine ⟨?_, ?_, ?_⟩
  · rcases hb : (forwardLoopAux env h f.target_function_names
        f.target_functions_address 0 f.target_functions_address.length).1 with e | u
    · rw [forward_all_body_err env f h e hinit hl hb, hld]
      simp only [List.countP_append, free_library]
      rw [countP_isLoad_zero _ S4]
      simp [isLoad]
    · cases u
      rw [forward_all_body_ok env f h hinit hl hb, hld]
      simp only [List.countP_append]
      rw [countP_isLoad_zero _ S4]
      simp [isLoad]
  · intro hall
    rcases hb : (forwardLoopAux env h f.target_function_names
        f.target_functions_address 0 f.target_functions_address.length).1 with e | u
    · obtain ⟨k, _, hk2, hk3, _, _⟩ := S6 e hb
      obtain ⟨a, ha⟩ := hall k (by omega)
      rw [ha] at hk3
      simp at hk3
    · cases u
      obtain ⟨SA, SB⟩ := S5 hb
      rw [forward_all_body_ok env f h hinit hl hb, hld]
      refine ⟨rfl, rfl, rfl, S1, ?_, ?_⟩
      · intro j hj
        exact SA j (by omega) (by omega)
      · rw [SB]
        simp
  · intro i e hiN herr hbelow
    have hb : (forwardLoopAux env h f.target_function_names
        f.target_functions_address 0 f.target_functions_address.length).1 = .error e := by
      rcases hb0 : (forwardLoopAux env h f.target_function_names
          f.target_functions_address 0 f.target_functions_address.length).1 with e' | u
      · obtain ⟨k, _, hk2, hk3, hk4, _⟩ := S6 e' hb0
        rcases Nat.lt_trichotomy k i with hki | hki | hki
        · obtain ⟨a, ha⟩ := hbelow k hki
          rw [ha] at hk3
          simp at hk3
        · subst hki
          rw [herr] at hk3
          simp at hk3
          rw [hk3]
        · have := hk4 i (by omega) hki
          rw [herr] at this
          simp at this
      · cases u
        obtain ⟨SA, _⟩ := S5 hb0
        have := SA i (by omega) (by omega)
        rw [herr] at this
        simp at this
    obtain ⟨k, _, hk2, hk3, hk4, hk5⟩ := S6 e hb
    have hki : k = i := by
      rcases Nat.lt_trichotomy k i with hlt | heq | hgt
      · obtain ⟨a, ha⟩ := hbelow k hlt
        rw [ha] at hk3
        simp at hk3
      · exact heq
      · have := hk4 i (by omega) hgt
        rw [herr] at this
        simp at this
    subst hki
    rw [forward_all_body_err env f h e hinit hl hb, hld]
    refine ⟨rfl, hinit, rfl, ?_, ?_, ?_⟩
    · intro j hj
      exact hk4 j (by omega) hj
    · intro j hj
      rw [hk5 j hj]
      exact hzero j
    · exact ⟨(forwardLoopAux env h f.target_function_names
        f.target_functions_address 0 f.target_functions_address.length).2.2, S4,
        by simp [free_library]⟩

theorem forward_all_resolution_witness :
    (forward_all cenv cfwd0).2.2.countP (fun e => isLoad e) = 1 ∧
    (forward_all cenv cfwd0).1 = .ok () ∧
    (forward_all cenv cfwd0).2.1.module_handle = 5 ∧
    (forward_all cenv cfwd0).2.1.initialized = true := by
  have T := forward_all_resolution cenv cfwd0 5 (by decide) (by decide)
    (by intro j; rcases j with _ | _ | j <;> simp [cfwd0])
  have hall : ∀ j, j < cfwd0.target_functions_address.length →
      ∃ a, procAt cenv 5 cfwd0.target_function_names j = .ok a := by
    intro j hj
    rcases j with _ | _ | j
    · exact ⟨4660, by decide⟩
    · exact ⟨4661, by decide⟩
    · simp only [cfwd0, List.length_cons, List.length_nil] at hj
      omega
  obtain ⟨T1, T2, _⟩ := T
  obtain ⟨TA, TB, TC, _⟩ := T2 hall
  exact ⟨T1, TA, TC, TB⟩

theorem load_err_events (env : LibEnv) (s : String) (e : ForwardError)
    (h : (load_library env s).1 = .error e) :
    (load_library env s).2 = [] := by
  unfold load_library at h ⊢
  by_cases hn : hasNul s = true
  · rw [if_pos hn]
  · rw [if_neg hn] at h ⊢
    by_cases hz : env.loadLibrary s = 0
    · simp [hz]
    · simp [hz] at h

theorem dj_nonzero (env : LibEnv) (ln pn : String) (a : Nat) (ha : a ≠ 0) :
    default_jumper env ln pn a = (.addr a, []) := by
  simp [default_jumper, ha]

theorem dj_load_err (env : LibEnv) (ln pn : String) (e : ForwardError)
    (hl : (load_library env ln).1 = .error e) :
    default_jumper env ln pn 0 = (.exitFn, (load_library env ln).2) := by
  simp [default_jumper, hl]

theorem dj_resolve_ok (env : LibEnv) (ln pn : String) (h addr : Nat)
    (hl : (load_library env ln).1 = .ok h)
    (hg : (get_proc_address_by_module env h pn).1 = .ok addr) :
    default_jumper env ln pn 0 =
      (.addr addr, (load_library env ln).2 ++
        (get_proc_address_by_module env h pn).2 ++ free_library h) := by
  simp [default_jumper, hl, hg]

theorem dj_resolve_err (env : LibEnv) (ln pn : String) (h : Nat) (e : ForwardError)
    (hl : (load_library env ln).1 = .ok h)
    (hg : (get_proc_address_by_module env h pn).1 = .error e) :
    default_jumper env ln pn 0 =
      (.exitFn, (load_library env ln).2 ++
        (get_proc_address_by_module env h pn).2 ++ free_library h) := by
  simp [default_jumper, hl, hg]

/-- C3 counterexample: slot 0 of cfwd0 holds 0; invoking the generated entry
point resolves "Foo" to 4660 and proceeds there, yet the slot afterwards still
holds 0 rather than the resolved address: the lazy resolver writes nothing
into its slot. -/
theorem lazy_resolver_never_writes_slot :
    (lazyInvoke cenv cfwd0 0).1 = .addr 4660 ∧
    (lazyInvoke cenv cfwd0 0).2.1.target_functions_address.getD 0 0 = 0 ∧
    ¬ (lazyInvoke cenv cfwd0 0).2.1.target_functions_address.getD 0 0 = 4660 := by
  decide

/-- C3 (amended): when the slot of a generated entry point holds 0, the
resolver acquires the target library, resolves the entry point's own symbol
name and proceeds to that address; the slot is not written (the forwarder
state is returned unchanged, so later unresolved calls re-resolve); if either
the library acquisition or the symbol resolution fails, control goes to the
terminal fallback exit_fn that ends the process; and a nonzero slot is used
directly with no library acquisition (no events at all). -/
theorem lazy_invoke_resolution (env : LibEnv) (f : DllForwarder) (i : Nat)
    (h : Nat)
    (hslot : f.target_functions_address.getD i 0 = 0)
    (hl : (load_library env f.lib_name).1 = .ok h) :
    (∀ addr,
      (get_proc_address_by_module env h (f.target_function_names.getD i "")).1 = .ok addr →
      (lazyInvoke env f i).1 = .addr addr) ∧
    (∀ e,
      (get_proc_address_by_module env h (f.target_function_names.getD i "")).1 = .error e →
      (lazyInvoke env f i).1 = .exitFn) ∧
    (lazyInvoke env f i).2.1 = f ∧
    (∀ (envX : LibEnv) (gX : DllForwarder) (jX : Nat) (e : ForwardError),
      (load_library envX gX.lib_name).1 = .error e →
      gX.target_functions_address.getD jX 0 = 0 →
      (lazyInvoke envX gX jX).1 = .exitFn) ∧
    (∀ (gX : DllForwarder) (jX a : Nat),
      gX.target_functions_address.getD jX 0 = a → a ≠ 0 →
      lazyInvoke env gX jX = (.addr a, gX, [])) := by
  refine ⟨?_, ?_, rfl, ?_, ?_⟩
  · intro addr hg
    simp only [lazyInvoke]
    rw [hslot, dj_resolve_ok env f.lib_name _ h addr hl hg]
  · intro e hg
    simp only [lazyInvoke]
    rw [hslot, dj_resolve_err env f.lib_name _ h e hl hg]
  · intro envX gX jX e hle hs
    simp only [lazyInvoke]
    rw [hs, dj_load_err envX gX.lib_name _ e hle]
  · intro gX jX a hs ha
    simp only [lazyInvoke]
    rw [hs, dj_nonzero env gX.lib_name _ a ha]

theorem lazy_invoke_resolution_witness :
    (lazyInvoke cenv cfwd0 0).1 = .addr 4660 ∧
    (lazyInvoke cenv cfwd0 0).2.1 = cfwd0 := by
  have T := lazy_invoke_resolution cenv cfwd0 0 5 (by decide) (by decide)
  exact ⟨T.1 4660 (by decide), T.2.2.1⟩

theorem count_load_zero (l : List Event) (hq : ∀ q ∈ l, isQuery q = true) (h0 : Nat) :
    l.count (Event.load h0) = 0 := by
  rw [List.count_eq_zero]
  intro hmem
  have := hq _ hmem
  simp [isQuery] at this

theorem count_free_zero (l : List Event) (hq : ∀ q ∈ l, isQuery q = true) (h0 : Nat) :
    l.count (Event.free h0) = 0 := by
  rw [List.count_eq_zero]
  intro hmem
  have := hq _ hmem
  simp [isQuery] at this

/-- C10: every handle the lazy per-call resolver acquires is released by
FreeLibrary before the jumper returns its target (load and free events balance
for every handle, in success and in failure); forward_all likewise balances
its events whenever it returns an error; only a successful forward_all retains
a handle: its trace is a single load event followed by queries only, with no
release, and that handle is the one stored into module_handle (into_raw). -/
theorem jumper_releases_every_handle (env : LibEnv) (ln pn : String) (orig : Nat)
    (f : DllForwarder) :
    (∀ h0, (default_jumper env ln pn orig).2.count (Event.load h0) =
      (default_jumper env ln pn orig).2.count (Event.free h0)) ∧
    (∀ e, (forward_all env f).1 = .error e →
      ∀ h0, (forward_all env f).2.2.count (Event.load h0) =
        (forward_all env f).2.2.count (Event.free h0)) ∧
    ((forward_all env f).1 = .ok () →
      ∃ h1 qs, (∀ q ∈ qs, isQuery q = true) ∧
        (forward_all env f).2.2 = Event.load h1 :: qs ∧
        (forward_all env f).2.1.module_handle = h1) := by
  refine ⟨?_, ?_, ?_⟩
  · intro h0
    by_cases ho : orig = 0
    · subst ho
      rcases hl : (load_library env ln).1 with e | h
      · rw [dj_load_err env ln pn e hl, load_err_events env ln e hl]
        simp
      · have hq := gp_events_query env h pn
        rcases hg : (get_proc_address_by_module env h pn).1 with e | addr
        · rw [dj_resolve_err env ln pn h e hl hg]
          rw [load_ok_events env ln h hl]
          simp only [free_library, List.count_append]
          rw [count_load_zero _ hq h0, count_free_zero _ hq h0]
          by_cases hh : h0 = h <;> simp [hh, List.count_cons, List.count_nil]
        · rw [dj_resolve_ok env ln pn h addr hl hg]
          rw [load_ok_events env ln h hl]
          simp only [free_library, List.count_append]
          rw [count_load_zero _ hq h0, count_free_zero _ hq h0]
          by_cases hh : h0 = h <;> simp [hh, List.count_cons, List.count_nil]
    · rw [dj_nonzero env ln pn orig ho]
      simp
  · intro e herr h0
    by_cases hinit : f.initialized = true
    · rw [forward_all_init_eq env f hinit]
      simp
    · rw [Bool.not_eq_true] at hinit
      rcases hl : (load_library env f.lib_name).1 with e' | h
      · rw [forward_all_load_err env f e' hinit hl, load_err_events env f.lib_name e' hl]
        simp
      · have spec := forwardLoopAux_spec env h f.target_function_names
          f.target_functions_address.length 0 f.target_functions_address (by omega)
        unfold LoopSpec at spec
        obtain ⟨_, _, _, S4, _, _⟩ := spec
        rcases hb : (forwardLoopAux env h f.target_function_names
            f.target_functions_address 0 f.target_functions_address.length).1 with e' | u
        · rw [forward_all_body_err env f h e' hinit hl hb,
            load_ok_events env f.lib_name h hl]
          simp only [free_library, List.count_append]
          rw [count_load_zero _ S4 h0, count_free_zero _ S4 h0]
          by_cases hh : h0 = h <;> simp [hh, List.count_cons, List.count_nil]
        · cases u
          rw [forward_all_body_ok env f h hinit hl hb] at herr
          simp at herr
  · intro hok
    by_cases hinit : f.initialized = true
    · rw [forward_all_init_eq env f hinit] at hok
      simp at hok
    · rw [Bool.not_eq_true] at hinit
      rcases hl : (load_library env f.lib_name).1 with e' | h
      · rw [forward_all_load_err env f e' hinit hl] at hok
        simp at hok
      · have spec := forwardLoopAux_spec env h f.target_function_names
          f.target_functions_address.length 0 f.target_functions_address (by omega)
        unfold LoopSpec at spec
        obtain ⟨_, _, _, S4, _, _⟩ := spec
        rcases hb : (forwardLoopAux env h f.target_function_names
            f.target_functions_address 0 f.target_functions_address.length).1 with e' | u
        · rw [forward_all_body_err env f h e' hinit hl hb] at hok
          simp at hok
        · cases u
          rw [forward_all_body_ok env f h hinit hl hb,
            load_ok_events env f.lib_name h hl]
          exact ⟨h, (forwardLoopAux env h f.target_function_names
            f.target_functions_address 0 f.target_functions_address.length).2.2,
            S4, by simp, rfl⟩

theorem jumper_releases_every_handle_witness :
    (∀ h0, (default_jumper cenv "target.dll" "Foo" 0).2.count (Event.load h0) =
      (default_jumper cenv "target.dll" "Foo" 0).2.count (Event.free h0)) ∧
    (∃ h1 qs, (∀ q ∈ qs, isQuery q = true) ∧
      (forward_all cenv cfwd0).2.2 = Event.load h1 :: qs ∧
      (forward_all cenv cfwd0).2.1.module_handle = h1) := by
  have T := jumper_releases_every_handle cenv "target.dll" "Foo" 0 cfwd0
  exact ⟨T.1, T.2.2 (by decide)⟩

/-- ExportItem from forward-dll/src/lib.rs: an export-directory entry, the
ordinal plus an optional name (anonymous entries have none). -/
structure ExportItem where
  ordinal : Nat
  name : Option String
deriving DecidableEq, Repr

/-- to_ascii_lowercase on one character: only A-Z are mapped. -/
def asciiLowerChar (c : Char) : Char :=
  if 'A' ≤ c ∧ c ≤ 'Z' then Char.ofNat (c.toNat + 32) else c

/-- str::to_ascii_lowercase. -/
def asciiLower (s : String) : String :=
  String.mk (s.data.map asciiLowerChar)

/-- The dll_path_without_ext computation of forward_dll_impl: strip a trailing
".dll", compared case-insensitively (the slice arithmetic is in bytes in the
source; characters here, identical on ASCII paths). -/
def dll_path_without_ext (dll_path : String) : String :=
  if List.isSuffixOf ".dll".data (asciiLower dll_path).data then
    String.mk (dll_path.data.take (dll_path.data.length - 4))
  else dll_path

/-- The export-directive loop of forward_dll_impl: one /EXPORT: linker
directive per export, a running counter for anonymous names starting at 0 and
incremented before use (so the first placeholder is forward_dll_anonymous_1),
and the ordinal-to-placeholder map built by insertion.  Returns the directive
list, the final counter and the final map. -/
def exportDirectivesAux (base : String) :
    List ExportItem → Nat → List (Nat × String) →
      List String × Nat × List (Nat × String)
  | [], cnt, mp => ([], cnt, mp)
  | e :: rest, cnt, mp =>
    match e.name with
    | some n =>
      let d := "/EXPORT:" ++ n ++ "=" ++ base ++ "." ++ n ++ ",@" ++ toString e.ordinal
      let r := exportDirectivesAux base rest cnt mp
      (d :: r.1, r.2)
    | none =>
      let cnt2 := cnt + 1
      let fn := "forward_dll_anonymous_" ++ toString cnt2
      let d := "/EXPORT:" ++ fn ++ "=" ++ base ++ ".#" ++ toString e.ordinal ++
        ",@" ++ toString e.ordinal
      let r := exportDirectivesAux base rest cnt2 (mp ++ [(e.ordinal, fn)])
      (d :: r.1, r.2)

/-- HashMap::get on the insertion list: the most recent insert for a key wins
(HashMap::insert overwrites). -/
def mapLookup (mp : List (Nat × String)) (k : Nat) : Option String :=
  match mp.reverse.find? (fun p => p.1 == k) with
  | some p => some p.2
  | none => none

/-- The EXPORTS body of the module-definition file built by forward_dll_impl:
named exports as "  name @ordinal", anonymous ones as the placeholder from the
map with a NONAME marker (the source unwraps the map entry, which is always
present; getD "" stands for that unwrap). -/
def exportsDefBody (mp : List (Nat × String)) : List ExportItem → String
  | [] => ""
  | e :: rest =>
    (match e.name with
     | some n => "  " ++ n ++ " @" ++ toString e.ordinal ++ "\n"
     | none =>
       "  " ++ (mapLookup mp e.ordinal).getD "" ++ " @" ++ toString e.ordinal ++
         " NONAME\n") ++ exportsDefBody mp rest

/-- The external effects of forward_dll_impl that live outside this repository:
whether implib's ModuleDef::parse accepts the def text, whether opening and
writing the import-library artifact succeed, and the build output directory. -/
structure BuildEnv where
  parseOk : Bool
  openOk : Bool
  writeOk : Bool
  outDir : String
deriving DecidableEq, Repr

/-- What forward_dll_impl emits on success: the cargo link-arg lines (one per
export directive), the module-definition text handed to implib, the artifact
path, and the closing link-search / link-lib lines. -/
structure LinkOutput where
  linkArgs : List String
  exportsDef : String
  artifactPath : String
  cargoTail : List String
deriving DecidableEq, Repr

/-- forward_dll_impl from forward-dll/src/lib.rs: strips the .dll suffix,
emits one /EXPORT: directive per export (synthesizing placeholder names for
anonymous exports), builds the LIBRARY version def text, hands it to implib
(ModuleDef::parse), writes version_proxy.lib into the out dir and emits the
link-search and link-lib lines; the three external failure points surface the
source's error strings. -/
def forward_dll_impl (benv : BuildEnv) (dll_path : String)
    (exports : List ExportItem) : Except String LinkOutput :=
  let base := dll_path_without_ext dll_path
  let emitted := exportDirectivesAux base exports 0 []
  let defContent := "LIBRARY version\nEXPORTS\n" ++ exportsDefBody emitted.2.2 exports
  if benv.parseOk = false then .error "ImportLibrary::new error"
  else if benv.openOk = false then .error "OpenOptions::open error"
  else if benv.writeOk = false then .error "ImportLibrary::write_to error"
  else .ok { linkArgs := emitted.1.map (fun d => "cargo:rustc-link-arg=" ++ d)
             exportsDef := defContent
             artifactPath := benv.outDir ++ "/version_proxy.lib"
             cargoTail := ["cargo:rustc-link-search=" ++ benv.outDir,
                           "cargo:rustc-link-lib=version_proxy"] }

/-- The export set of the spec's link-time generation example:
Foo at ordinal 1, Bar at ordinal 2, an anonymous export at ordinal 3. -/
def demoExports : List ExportItem :=
  [{ ordinal := 1, name := some "Foo" }, { ordinal := 2, name := some "Bar" },
   { ordinal := 3, name := none }]

/-- A build environment in which every external step succeeds. -/
def okBenv : BuildEnv :=
  { parseOk := true, openOk := true, writeOk := true, outDir := "out" }

/-- C5 counterexample: for target "target" and exports Foo at 1, Bar at 2 and
anonymous at 3, the emitted directives are not the claimed ones: the
anonymous placeholder is forward_dll_anonymous_1 (not forward_anon_1) and the
anonymous linker directive carries no ",NONAME" suffix. -/
theorem linker_directive_claim_false :
    (exportDirectivesAux "target" demoExports 0 []).1 ≠
      ["/EXPORT:Foo=target.Foo,@1", "/EXPORT:Bar=target.Bar,@2",
       "/EXPORT:forward_anon_1=target.#3,@3,NONAME"] := by
  decide

/-- C5 (amended): link-time generation for target "target" with exports Foo
at 1, Bar at 2 and anonymous at 3 emits exactly the directives
/EXPORT:Foo=target.Foo,@1, /EXPORT:Bar=target.Bar,@2 and
/EXPORT:forward_dll_anonymous_1=target.#3,@3 (the placeholder is the
deterministic counter name forward_dll_anonymous_1 and the linker directive
has no NONAME suffix), and the import-library descriptor lists Foo @1, Bar @2
and forward_dll_anonymous_1 @3 NONAME. -/
theorem linker_directives_emitted :
    (exportDirectivesAux "target" demoExports 0 []).1 =
      ["/EXPORT:Foo=target.Foo,@1", "/EXPORT:Bar=target.Bar,@2",
       "/EXPORT:forward_dll_anonymous_1=target.#3,@3"] ∧
    forward_dll_impl okBenv "target" demoExports =
      .ok { linkArgs := ["cargo:rustc-link-arg=/EXPORT:Foo=target.Foo,@1",
                         "cargo:rustc-link-arg=/EXPORT:Bar=target.Bar,@2",
                         "cargo:rustc-link-arg=/EXPORT:forward_dll_anonymous_1=target.#3,@3"]
            exportsDef :=
              "LIBRARY version\nEXPORTS\n  Foo @1\n  Bar @2\n  forward_dll_anonymous_1 @3 NONAME\n"
            artifactPath := "out/version_proxy.lib"
            cargoTail := ["cargo:rustc-link-search=out",
                          "cargo:rustc-link-lib=version_proxy"] } := by
  constructor
  · decide
  · decide

/-- A raw export-directory entry as the object crate's export_table().exports()
reports it, in the order the directory stores it: ordinal plus optional name
(the byte-to-string decoding of the name is absorbed into this facade). -/
structure RawExport where
  ordinal : Nat
  name : Option String
deriving DecidableEq, Repr

/-- The outcome of reading and parsing the target file through the object
crate facade used by get_dll_export_names: unreadable file, unrecognized
object file, recognized but not PE, invalid PE, or a parsed 32- or 64-bit PE
with an optional export directory holding its entries in stored order. -/
inductive DllFile where
  | unreadable (err : String)
  | unrecognized (err : String)
  | notPe
  | invalid (err : String)
  | pe (is64 : Bool) (exportDir : Option (List RawExport))
deriving DecidableEq, Repr

/-- The entry conversion in get_dll_export_names's collection loop: ordinal
and optional name are carried over verbatim. -/
def exportOfRaw (r : RawExport) : ExportItem :=
  { ordinal := r.ordinal, name := r.name }

/-- get_dll_export_names from forward-dll/src/lib.rs: the error strings of the
source for each failure, "No export table" when the PE has no export
directory, and otherwise the directory's entries collected in order. -/
def get_dll_export_names : DllFile → Except String (List ExportItem)
  | .unreadable err => .error ("Failed to read file: " ++ err)
  | .unrecognized err => .error ("Invalid file: " ++ err)
  | .notPe => .error "Invalid file"
  | .invalid err => .error ("Invalid pe file: " ++ err)
  | .pe _ none => .error "No export table"
  | .pe _ (some l) => .ok (l.map exportOfRaw)

/-- forward_dll_with_dev_path from forward-dll/src/lib.rs: read the export
table of the build-time file and run forward_dll_impl with it against the
runtime path; forward_dll is the special case where both paths coincide. -/
def forward_dll_with_dev_path (benv : BuildEnv) (dll_path : String)
    (dev_file : DllFile) : Except String LinkOutput :=
  match get_dll_export_names dev_file with
  | .error e => .error e
  | .ok exports => forward_dll_impl benv dll_path exports

/-- C6: for every parsed 32- or 64-bit PE with a present export directory,
get_dll_export_names returns exactly the directory's entries: the collected
list is the verbatim entry-by-entry image of the directory, with the same
length, in directory order, each position keeping its ordinal and its
named/anonymous status (no deduplication, no sorting). -/
theorem export_reader_preserves_directory (b : Bool) (l : List RawExport) :
    get_dll_export_names (.pe b (some l)) = .ok (l.map exportOfRaw) ∧
    (l.map exportOfRaw).length = l.length ∧
    (∀ j, ((l.map exportOfRaw).getD j (exportOfRaw { ordinal := 0, name := none })).ordinal =
      (l.getD j { ordinal := 0, name := none }).ordinal) ∧
    (∀ j, ((l.map exportOfRaw).getD j (exportOfRaw { ordinal := 0, name := none })).name =
      (l.getD j { ordinal := 0, name := none }).name) := by
  refine ⟨rfl, List.length_map l exportOfRaw, ?_, ?_⟩
  · intro j
    simp only [List.getD_eq_getElem?_getD, List.getElem?_map]
    rcases l[j]? with _ | r <;> rfl
  · intro j
    simp only [List.getD_eq_getElem?_getD, List.getElem?_map]
    rcases l[j]? with _ | r <;> rfl

/-- C7 counterexample: generation from an empty export list succeeds; there is
no emptiness check and no NoExportTable error anywhere in forward_dll_impl:
with the external steps succeeding it returns Ok with zero directives. -/
theorem empty_export_list_generation_succeeds :
    forward_dll_impl okBenv "target" [] =
      .ok { linkArgs := [], exportsDef := "LIBRARY version\nEXPORTS\n",
            artifactPath := "out/version_proxy.lib",
            cargoTail := ["cargo:rustc-link-search=out",
                          "cargo:rustc-link-lib=version_proxy"] } := by
  decide

/-- C7 (amended): a target binary with no export directory yields the
"No export table" error from the export reader, and
forward_dll_with_dev_path propagates that same error; but an empty export
list does not fail: forward_dll_impl performs no emptiness check and succeeds
(emitting zero export directives) whenever the external def-parse and
artifact-write steps succeed. -/
theorem no_export_directory_error (b : Bool) (benv : BuildEnv) (p : String)
    (hp : benv.parseOk = true) (ho : benv.openOk = true)
    (hw : benv.writeOk = true) :
    get_dll_export_names (.pe b none) = .error "No export table" ∧
    forward_dll_with_dev_path benv p (.pe b none) = .error "No export table" ∧
    (∃ out, forward_dll_impl benv p [] = .ok out ∧
      out.linkArgs = [] ∧
      out.exportsDef = "LIBRARY version\nEXPORTS\n") := by
  refine ⟨rfl, rfl, ?_⟩
  refine ⟨{ linkArgs := [], exportsDef := "LIBRARY version\nEXPORTS\n",
            artifactPath := benv.outDir ++ "/version_proxy.lib",
            cargoTail := ["cargo:rustc-link-search=" ++ benv.outDir,
                          "cargo:rustc-link-lib=version_proxy"] }, ?_, rfl, rfl⟩
  simp [forward_dll_impl, hp, ho, hw, exportDirectivesAux, exportsDefBody]

theorem no_export_directory_error_witness :
    get_dll_export_names (.pe true none) = .error "No export table" ∧
    forward_dll_with_dev_path okBenv "target" (.pe true none) =
      .error "No export table" ∧
    (∃ out, forward_dll_impl okBenv "target" [] = .ok out ∧
      out.linkArgs = [] ∧
      out.exportsDef = "LIBRARY version\nEXPORTS\n") :=
  no_export_directory_error true okBenv "target" rfl rfl rfl

/-- C8: whatever the target path and export list, a successful
forward_dll_impl always declares LIBRARY version at the head of the
module-definition text, always writes the artifact to
<outDir>/version_proxy.lib, and always emits exactly the link-search line for
the out dir and the rustc-link-lib=version_proxy directive, independent of
the target library's actual name. -/
theorem artifact_names_fixed (benv : BuildEnv) (dll_path : String)
    (exports : List ExportItem) (out : LinkOutput)
    (hok : forward_dll_impl benv dll_path exports = .ok out) :
    (∃ body, out.exportsDef = "LIBRARY version\nEXPORTS\n" ++ body) ∧
    out.artifactPath = benv.outDir ++ "/version_proxy.lib" ∧
    out.cargoTail = ["cargo:rustc-link-search=" ++ benv.outDir,
                     "cargo:rustc-link-lib=version_proxy"] := by
  unfold forward_dll_impl at hok
  split at hok
  · simp at hok
  · split at hok
    · simp at hok
    · split at hok
      · simp at hok
      · simp only [Except.ok.injEq] at hok
        subst hok
        exact ⟨⟨_, rfl⟩, rfl, rfl⟩

theorem artifact_names_fixed_witness :
    (∃ body,
      "LIBRARY version\nEXPORTS\n  Foo @1\n  Bar @2\n  forward_dll_anonymous_1 @3 NONAME\n" =
        "LIBRARY version\nEXPORTS\n" ++ body) ∧
    "out/version_proxy.lib" = "out" ++ "/version_proxy.lib" ∧
    ["cargo:rustc-link-search=out", "cargo:rustc-link-lib=version_proxy"] =
      ["cargo:rustc-link-search=" ++ "out", "cargo:rustc-link-lib=version_proxy"] := by
  have T := artifact_names_fixed okBenv "some_other_library.dll"
    demoExports
    { linkArgs := ["cargo:rustc-link-arg=/EXPORT:Foo=some_other_library.Foo,@1",
                   "cargo:rustc-link-arg=/EXPORT:Bar=some_other_library.Bar,@2",
                   "cargo:rustc-link-arg=/EXPORT:forward_dll_anonymous_1=some_other_library.#3,@3"]
      exportsDef :=
        "LIBRARY version\nEXPORTS\n  Foo @1\n  Bar @2\n  forward_dll_anonymous_1 @3 NONAME\n"
      artifactPath := "out/version_proxy.lib"
      cargoTail := ["cargo:rustc-link-search=out", "cargo:rustc-link-lib=version_proxy"] }
    (by decide)
  exact T

/-- get_dll_export_names from forward-dll-derive/src/lib.rs: same parsing and
ordering as the forward-dll reader, but the optional name is collapsed with
unwrap_or_default, so an anonymous entry yields the empty string. -/
def derive_get_dll_export_names : DllFile → Except String (List (Nat × String))
  | .unreadable err => .error ("Failed to read file: " ++ err)
  | .unrecognized err => .error ("Invalid file: " ++ err)
  | .notPe => .error "Invalid file"
  | .invalid err => .error ("Invalid pe file: " ++ err)
  | .pe _ none => .error "No export table"
  | .pe _ (some l) => .ok (l.map (fun r => (r.ordinal, r.name.getD "")))

/-- Concrete export directory with an anonymous entry at position 1. -/
def demoRawExports : List RawExport :=
  [{ ordinal := 1, name := some "Foo" }, { ordinal := 2, name := none }]

/-- format_ident! as derive_forward_module invokes it: it calls
proc_macro2::Ident::new on the formatted string, which panics on the empty
string ("Ident is not allowed to be empty"); the panic is modelled as the
error outcome (identifier-validity panics beyond emptiness are outside the
claims under verification). -/
def format_ident (s : String) : Except String String :=
  if s = "" then .error "Ident is not allowed to be empty"
  else .ok s

/-- The export_definitions loop of derive_forward_module
(forward-dll-derive/src/lib.rs lines 66-78): for each export it builds the
entry point's identifier with format_ident (underscore-prefixed when the
ordinal option is set) and the target identifier with format_ident; a
format_ident panic aborts macro expansion, so it surfaces as the error of the
whole construction. -/
def export_definitions (has_ordinal : Bool) :
    List (Nat × String) → Except String (List (String × String))
  | [] => .ok []
  | p :: rest =>
    match format_ident (if has_ordinal then "_" ++ p.2 else p.2) with
    | .error e => .error e
    | .ok en =>
      match format_ident p.2 with
      | .error e => .error e
      | .ok fn =>
        match export_definitions has_ordinal rest with
        | .error e => .error e
        | .ok tail => .ok ((en, fn) :: tail)

/-- What derive_forward_module generates from the export list
(forward-dll-derive/src/lib.rs): the static forwarder, uninitialized with
zeroed slots and the export names as target_function_names, together with the
export entry-point identifiers; when any identifier construction panics
(format_ident on an empty name), expansion fails and nothing is generated. -/
def derive_forward_module (has_ordinal : Bool) (dll_path : String)
    (exports : List (Nat × String)) :
    Except String (DllForwarder × List String) :=
  match export_definitions has_ordinal exports with
  | .error e => .error e
  | .ok defs =>
    .ok ({ initialized := false
           module_handle := 0
           target_functions_address := List.replicate exports.length 0
           target_function_names := exports.map (fun p => p.2)
           lib_name := dll_path },
         defs.map (fun d => d.1))

theorem format_ident_ok (s : String) (h : ¬ s = "") : format_ident s = .ok s := by
  simp [format_ident, h]

theorem underscore_append_ne_empty (s : String) : ¬ ("_" ++ s) = "" := by
  intro hcontra
  have hlen : ("_" ++ s).length = "".length := by rw [hcontra]
  rw [String.length_append] at hlen
  have h1 : "_".length = 1 := rfl
  have h0 : "".length = 0 := rfl
  omega

theorem export_definitions_cons_err1 (hasOrd : Bool) (p : Nat × String)
    (rest : List (Nat × String)) (e : String)
    (h : format_ident (if hasOrd then "_" ++ p.2 else p.2) = .error e) :
    export_definitions hasOrd (p :: rest) = .error e := by
  simp only [export_definitions, h]

theorem export_definitions_cons_err2 (hasOrd : Bool) (p : Nat × String)
    (rest : List (Nat × String)) (en e : String)
    (h1 : format_ident (if hasOrd then "_" ++ p.2 else p.2) = .ok en)
    (h2 : format_ident p.2 = .error e) :
    export_definitions hasOrd (p :: rest) = .error e := by
  simp only [export_definitions, h1, h2]

theorem export_definitions_cons_ok (hasOrd : Bool) (p : Nat × String)
    (rest : List (Nat × String)) (en fn : String)
    (h1 : format_ident (if hasOrd then "_" ++ p.2 else p.2) = .ok en)
    (h2 : format_ident p.2 = .ok fn) :
    export_definitions hasOrd (p :: rest) =
      match export_definitions hasOrd rest with
      | .error e => .error e
      | .ok tail => .ok ((en, fn) :: tail) := by
  simp only [export_definitions, h1, h2]

theorem export_definitions_error_of_empty (hasOrd : Bool) :
    ∀ exps : List (Nat × String), (∃ p ∈ exps, p.2 = "") →
    export_definitions hasOrd exps = .error "Ident is not allowed to be empty" := by
  intro exps
  induction exps with
  | nil =>
    intro h
    simp at h
  | cons p rest ih =>
    intro h
    by_cases hp : p.2 = ""
    · cases hasOrd with
      | false =>
        apply export_definitions_cons_err1
        rw [hp]
        decide
      | true =>
        apply export_definitions_cons_err2 true p rest ("_" ++ "")
        · rw [hp]
          decide
        · rw [hp]
          decide
    · have hrest : ∃ q ∈ rest, q.2 = "" := by
        obtain ⟨q, hq, hq2⟩ := h
        rcases List.mem_cons.mp hq with rfl | hmem
        · exact absurd hq2 hp
        · exact ⟨q, hmem, hq2⟩
      have h2 : format_ident p.2 = .ok p.2 := format_ident_ok p.2 hp
      cases hasOrd with
      | false =>
        rw [export_definitions_cons_ok false p rest p.2 p.2 h2 h2, ih hrest]
      | true =>
        rw [export_definitions_cons_ok true p rest ("_" ++ p.2) p.2
          (format_ident_ok _ (underscore_append_ne_empty p.2)) h2, ih hrest]

/-- C9 counterexample: the export directory demoRawExports holds an anonymous
entry; the derive reader collapses its name to "", and derive_forward_module
on that list fails with the Ident::new panic at macro expansion, generating
no forwarder at all - so no generated forwarder stores "" as a slot name, no
entry point named by the empty identifier exists, and bulk resolution with an
empty name is never reached. -/
theorem derive_anonymous_generates_nothing :
    derive_get_dll_export_names (.pe true (some demoRawExports)) =
      .ok [(1, "Foo"), (2, "")] ∧
    derive_forward_module false "target.dll" [(1, "Foo"), (2, "")] =
      .error "Ident is not allowed to be empty" := by
  constructor
  · decide
  · decide

/-- C9 (amended): an anonymous export at directory position i comes out of
the derive reader as (ordinal, ""); the macro then builds identifiers from
that empty string with format_ident (Ident::new), which panics at macro
expansion, so derivation for such a target fails - with or without the
ordinal option - and produces no forwarder: no slot storing "", no
empty-identifier entry point, and no resolution with the empty name is ever
generated. -/
theorem derive_anonymous_fails_expansion (b hasOrd : Bool) (l : List RawExport)
    (i o : Nat) (dll_path : String) (exps : List (Nat × String))
    (hei : derive_get_dll_export_names (.pe b (some l)) = .ok exps)
    (hl : l[i]? = some { ordinal := o, name := none }) :
    exps[i]? = some (o, "") ∧
    derive_forward_module hasOrd dll_path exps =
      .error "Ident is not allowed to be empty" := by
  simp only [derive_get_dll_export_names, Except.ok.injEq] at hei
  subst hei
  have hmap : (l.map (fun r => (r.ordinal, r.name.getD "")))[i]? = some (o, "") := by
    rw [List.getElem?_map, hl]
    rfl
  refine ⟨hmap, ?_⟩
  have hex : ∃ p ∈ l.map (fun r => (r.ordinal, r.name.getD "")), p.2 = "" :=
    ⟨(o, ""), List.getElem?_mem hmap, rfl⟩
  unfold derive_forward_module
  rw [export_definitions_error_of_empty hasOrd _ hex]

theorem derive_anonymous_fails_expansion_witness :
    [(1, "Foo"), (2, "")][1]? = some (2, "") ∧
    derive_forward_module false "target.dll" [(1, "Foo"), (2, "")] =
      .error "Ident is not allowed to be empty" :=
  derive_anonymous_fails_expansion true false demoRawExports 1 2 "target.dll"
    [(1, "Foo"), (2, "")] (by decide) (by decide)

/-- The x86_64 general-purpose registers the generated trampoline touches. -/
inductive Reg where
  | rax | rcx | rdx | r8 | r9 | r10 | r11 | rsp
deriving DecidableEq, Repr

/-- A register file for those registers. -/
structure Regs where
  rax : Int
  rcx : Int
  rdx : Int
  r8 : Int
  r9 : Int
  r10 : Int
  r11 : Int
  rsp : Int
deriving DecidableEq, Repr

def getReg (rs : Regs) : Reg → Int
  | .rax => rs.rax
  | .rcx => rs.rcx
  | .rdx => rs.rdx
  | .r8 => rs.r8
  | .r9 => rs.r9
  | .r10 => rs.r10
  | .r11 => rs.r11
  | .rsp => rs.rsp

def setReg (rs : Regs) : Reg → Int → Regs
  | .rax, v => { rs with rax := v }
  | .rcx, v => { rs with rcx := v }
  | .rdx, v => { rs with rdx := v }
  | .r8, v => { rs with r8 := v }
  | .r9, v => { rs with r9 := v }
  | .r10, v => { rs with r10 := v }
  | .r11, v => { rs with r11 := v }
  | .rsp, v => { rs with rsp := v }

/-- Quadword memory, one cell per 8-byte stack slot, addressed by the slot's
address; wr is a single store. -/
def wr (mm : Int → Int) (a v : Int) : Int → Int :=
  fun x => if x = a then v else mm x

/-- Machine state: registers plus stack memory. -/
structure Machine where
  regs : Regs
  mem : Int → Int

/-- The instructions appearing in the trampoline's asm blocks.  movImm stands
for the in("reg") operand bindings the compiler materializes before a block. -/
inductive Instr where
  | push (r : Reg)
  | pop (r : Reg)
  | subRsp (n : Int)
  | addRsp (n : Int)
  | movImm (r : Reg) (v : Int)
  | callRax
  | jmpRax
deriving DecidableEq, Repr

/-- Small-step semantics.  J is the behaviour of the resolver that call rax
invokes, from the instant after the return address is pushed to the instant
after its ret; its ABI constraints are hypotheses of the theorems.  retAddr is
the return address the call pushes.  jmp transfers control without touching
any register or memory (in particular it pushes no return address). -/
def step (J : Machine → Machine) (retAddr : Int) (m : Machine) : Instr → Machine
  | .push r =>
    { regs := setReg m.regs .rsp (getReg m.regs .rsp - 8)
      mem := wr m.mem (getReg m.regs .rsp - 8) (getReg m.regs r) }
  | .pop r =>
    { regs := setReg (setReg m.regs .rsp (getReg m.regs .rsp + 8)) r
        (m.mem (getReg m.regs .rsp))
      mem := m.mem }
  | .subRsp n => { m with regs := setReg m.regs .rsp (getReg m.regs .rsp - n) }
  | .addRsp n => { m with regs := setReg m.regs .rsp (getReg m.regs .rsp + n) }
  | .movImm r v => { m with regs := setReg m.regs r v }
  | .callRax =>
    J { regs := setReg m.regs .rsp (getReg m.regs .rsp - 8)
        mem := wr m.mem (getReg m.regs .rsp - 8) retAddr }
  | .jmpRax => m

def exec (J : Machine → Machine) (retAddr : Int) (code : List Instr)
    (m : Machine) : Machine :=
  code.foldl (step J retAddr) m

/-- The x86_64 trampoline of define_function! in forward-dll/src/lib.rs: the
three asm blocks push rcx/rdx/r8/r9/r10/r11, bind rax to default_jumper and
rcx to the slot value, sub rsp 28h / call rax / add rsp 28h, pop the six
registers in reverse order and jmp rax.  0x28 = 40. -/
def trampolineCode (jumperAddr slotValue : Int) : List Instr :=
  [ .push .rcx, .push .rdx, .push .r8, .push .r9, .push .r10, .push .r11,
    .movImm .rax jumperAddr, .movImm .rcx slotValue,
    .subRsp 40, .callRax, .addRsp 40,
    .pop .r11, .pop .r10, .pop .r9, .pop .r8, .pop .rdx, .pop .rcx,
    .jmpRax ]

/-- The machine state at the resolver's entry: six saved registers pushed,
rax/rcx bound, shadow space reserved, return address pushed. -/
def callState (retAddr jumperAddr slotValue : Int) (m : Machine) : Machine :=
  { regs := { rax := jumperAddr, rcx := slotValue, rdx := m.regs.rdx,
              r8 := m.regs.r8, r9 := m.regs.r9, r10 := m.regs.r10,
              r11 := m.regs.r11,
              rsp := m.regs.rsp - 8 - 8 - 8 - 8 - 8 - 8 - 40 - 8 }
    mem := wr (wr (wr (wr (wr (wr (wr m.mem
      (m.regs.rsp - 8) m.regs.rcx)
      (m.regs.rsp - 8 - 8) m.regs.rdx)
      (m.regs.rsp - 8 - 8 - 8) m.regs.r8)
      (m.regs.rsp - 8 - 8 - 8 - 8) m.regs.r9)
      (m.regs.rsp - 8 - 8 - 8 - 8 - 8) m.regs.r10)
      (m.regs.rsp - 8 - 8 - 8 - 8 - 8 - 8) m.regs.r11)
      (m.regs.rsp - 8 - 8 - 8 - 8 - 8 - 8 - 40 - 8) retAddr }

/-- The effect of the add rsp 28h / six pops / jmp suffix on the state the
resolver returns. -/
def postPops (mJ : Machine) : Machine :=
  { regs := { rax := mJ.regs.rax
              rcx := mJ.mem (mJ.regs.rsp + 40 + 8 + 8 + 8 + 8 + 8)
              rdx := mJ.mem (mJ.regs.rsp + 40 + 8 + 8 + 8 + 8)
              r8 := mJ.mem (mJ.regs.rsp + 40 + 8 + 8 + 8)
              r9 := mJ.mem (mJ.regs.rsp + 40 + 8 + 8)
              r10 := mJ.mem (mJ.regs.rsp + 40 + 8)
              r11 := mJ.mem (mJ.regs.rsp + 40)
              rsp := mJ.regs.rsp + 40 + 8 + 8 + 8 + 8 + 8 + 8 }
    mem := mJ.mem }

set_option maxHeartbeats 2000000 in
theorem trampoline_exec_unfold (J : Machine → Machine)
    (retAddr jumperAddr slotValue : Int) (m : Machine) :
    exec J retAddr (trampolineCode jumperAddr slotValue) m =
      postPops (J (callState retAddr jumperAddr slotValue m)) := by
  simp only [exec, trampolineCode, List.foldl_cons, List.foldl_nil, step,
    getReg, setReg, postPops, callState]

set_option maxHeartbeats 4000000 in
/-- C2: for every resolver behaviour J obeying the Win64 ABI at the call
boundary (stack pointer balanced at ret; caller memory at or above the top of
the shadow space preserved; result in rax a function of its first argument
rcx), running the generated trampoline restores rcx, rdx, r8, r9, r10 and r11
bit-for-bit to the caller's values, restores rsp, leaves every stack cell at
or above the caller's rsp (the stack-passed arguments and the caller's return
address) untouched, and ends in a jmp - the last instruction, which pushes no
return address - to the rax value the resolver computed from the slot value,
so the resolved function returns directly to the original caller. -/
theorem trampoline_preserves_caller_state
    (J : Machine → Machine) (resolve : Int → Int)
    (retAddr jumperAddr slotValue : Int) (m : Machine)
    (HJrsp : ∀ s, (J s).regs.rsp = s.regs.rsp + 8)
    (HJmem : ∀ s a, s.regs.rsp + 40 ≤ a → (J s).mem a = s.mem a)
    (HJrax : ∀ s, (J s).regs.rax = resolve s.regs.rcx) :
    (exec J retAddr (trampolineCode jumperAddr slotValue) m).regs.rcx = m.regs.rcx ∧
    (exec J retAddr (trampolineCode jumperAddr slotValue) m).regs.rdx = m.regs.rdx ∧
    (exec J retAddr (trampolineCode jumperAddr slotValue) m).regs.r8 = m.regs.r8 ∧
    (exec J retAddr (trampolineCode jumperAddr slotValue) m).regs.r9 = m.regs.r9 ∧
    (exec J retAddr (trampolineCode jumperAddr slotValue) m).regs.r10 = m.regs.r10 ∧
    (exec J retAddr (trampolineCode jumperAddr slotValue) m).regs.r11 = m.regs.r11 ∧
    (exec J retAddr (trampolineCode jumperAddr slotValue) m).regs.rsp = m.regs.rsp ∧
    (∀ a, m.regs.rsp ≤ a →
      (exec J retAddr (trampolineCode jumperAddr slotValue) m).mem a = m.mem a) ∧
    (exec J retAddr (trampolineCode jumperAddr slotValue) m).regs.rax =
      resolve slotValue ∧
    (trampolineCode jumperAddr slotValue).getLast? = some .jmpRax := by
  rw [trampoline_exec_unfold J retAddr jumperAddr slotValue m]
  set mc := callState retAddr jumperAddr slotValue m with hmc
  have hcrsp : mc.regs.rsp = m.regs.rsp - 96 := by
    rw [hmc]; simp only [callState]; ring
  have hrcx : mc.regs.rcx = slotValue := by
    rw [hmc]; simp only [callState]
  have hJr : (J mc).regs.rsp = m.regs.rsp - 88 := by
    rw [HJrsp, hcrsp]; ring
  have hmemJ : ∀ a, m.regs.rsp - 56 ≤ a → (J mc).mem a = mc.mem a := by
    intro a ha
    apply HJmem
    rw [hcrsp]
    omega
  have readRcx : (J mc).mem (m.regs.rsp - 8) = m.regs.rcx := by
    rw [hmemJ (m.regs.rsp - 8) (by omega), hmc]
    simp only [callState, wr]
    split_ifs <;> omega
  have readRdx : (J mc).mem (m.regs.rsp - 16) = m.regs.rdx := by
    rw [hmemJ (m.regs.rsp - 16) (by omega), hmc]
    simp only [callState, wr]
    split_ifs <;> omega
  have readR8 : (J mc).mem (m.regs.rsp - 24) = m.regs.r8 := by
    rw [hmemJ (m.regs.rsp - 24) (by omega), hmc]
    simp only [callState, wr]
    split_ifs <;> omega
  have readR9 : (J mc).mem (m.regs.rsp - 32) = m.regs.r9 := by
    rw [hmemJ (m.regs.rsp - 32) (by omega), hmc]
    simp only [callState, wr]
    split_ifs <;> omega
  have readR10 : (J mc).mem (m.regs.rsp - 40) = m.regs.r10 := by
    rw [hmemJ (m.regs.rsp - 40) (by omega), hmc]
    simp only [callState, wr]
    split_ifs <;> omega
  have readR11 : (J mc).mem (m.regs.rsp - 48) = m.regs.r11 := by
    rw [hmemJ (m.regs.rsp - 48) (by omega), hmc]
    simp only [callState, wr]
    split_ifs <;> omega
  refine ⟨?_, ?_, ?_, ?_, ?_, ?_, ?_, ?_, ?_, rfl⟩
  · simp only [postPops]
    rw [hJr]
    have ha : m.regs.rsp - 88 + 40 + 8 + 8 + 8 + 8 + 8 = m.regs.rsp - 8 := by ring
    rw [ha, readRcx]
  · simp only [postPops]
    rw [hJr]
    have ha : m.regs.rsp - 88 + 40 + 8 + 8 + 8 + 8 = m.regs.rsp - 16 := by ring
    rw [ha, readRdx]
  · simp only [postPops]
    rw [hJr]
    have ha : m.regs.rsp - 88 + 40 + 8 + 8 + 8 = m.regs.rsp - 24 := by ring
    rw [ha, readR8]
  · simp only [postPops]
    rw [hJr]
    have ha : m.regs.rsp - 88 + 40 + 8 + 8 = m.regs.rsp - 32 := by ring
    rw [ha, readR9]
  · simp only [postPops]
    rw [hJr]
    have ha : m.regs.rsp - 88 + 40 + 8 = m.regs.rsp - 40 := by ring
    rw [ha, readR10]
  · simp only [postPops]
    rw [hJr]
    have ha : m.regs.rsp - 88 + 40 = m.regs.rsp - 48 := by ring
    rw [ha, readR11]
  · simp only [postPops]
    rw [hJr]
    ring
  · intro a ha
    simp only [postPops]
    rw [hmemJ a (by omega), hmc]
    simp only [callState, wr]
    split_ifs <;> omega
  · simp only [postPops]
    rw [HJrax, hrcx]

/-- A concrete resolver result function for the witness. -/
def cresolve : Int → Int := fun v => v + 1000

/-- A concrete resolver behaviour obeying the ABI constraints: balanced rsp,
arbitrary clobbers of the volatile registers, writes below the shadow-space
top, result in rax computed from rcx. -/
def cJ : Machine → Machine := fun s =>
  { regs := { rax := cresolve s.regs.rcx, rcx := 111, rdx := 222, r8 := 333,
              r9 := 444, r10 := 555, r11 := 666, rsp := s.regs.rsp + 8 }
    mem := fun a => if a < s.regs.rsp + 40 then a * 7 else s.mem a }

/-- A concrete caller state. -/
def cm : Machine :=
  { regs := { rax := 1, rcx := 2, rdx := 3, r8 := 4, r9 := 5, r10 := 6,
              r11 := 7, rsp := 1000 }
    mem := fun a => a }

theorem trampoline_preserves_caller_state_witness :
    (exec cJ 77 (trampolineCode 123 9) cm).regs.rcx = 2 ∧
    (exec cJ 77 (trampolineCode 123 9) cm).regs.r11 = 7 ∧
    (exec cJ 77 (trampolineCode 123 9) cm).regs.rsp = 1000 ∧
    (exec cJ 77 (trampolineCode 123 9) cm).mem 1008 = 1008 ∧
    (exec cJ 77 (trampolineCode 123 9) cm).regs.rax = cresolve 9 := by
  have T := trampoline_preserves_caller_state cJ cresolve 77 123 9 cm
    (fun s => rfl)
    (fun s a h => by simp only [cJ]; rw [if_neg (by omega)])
    (fun s => rfl)
  obtain ⟨h1, _, _, _, _, h6, h7, h8, h9, _⟩ := T
  exact ⟨h1, h6, h7, h8 1008 (by norm_num [cm]), h9⟩
